import Mathlib

set_option maxRecDepth 8192

/-!
Verification of the companion-pack-protocol repository.

Part 1 embeds the Vite plugin source (src/vite-plugin.ts): the
companionPack function, the build configuration object it returns, and
the self-registration footer string it emits, together with a small
semantics for the JavaScript statements of that footer.

Part 2 models, from the specification, the components whose code is not
shipped in this package (the Subprocess Protocol Runtime, the Session
State Machine, the host cache store, and the Sandbox Cache Bridge), and
proves the spec-level properties about them.
-/

/-! ## Part 1: the Vite plugin (embedded from src/vite-plugin.ts) -/

/-- Options accepted by companionPack (src/dist/vite-plugin.d.ts).
entry and outDir are optional; none models an omitted property. -/
structure CompanionPackOptions where
  packId : String
  packName : String
  entry : Option String := none
  outDir : Option String := none

/-- The build.lib object of the returned config. The source fileName is
the constant function returning "frontend.js"; it is embedded as the
string it returns. -/
structure LibConfig where
  entry : String
  name : String
  fileName : String
  formats : List String
deriving DecidableEq

/-- The rollupOptions.output object: the externalized globals map and
the self-registration footer string. -/
structure OutputConfig where
  globals : List (String × String)
  footer : String
deriving DecidableEq

/-- The rollupOptions object of the returned config. -/
structure RollupConfig where
  external : List String
  output : OutputConfig
deriving DecidableEq

/-- The build object of the returned config. -/
structure BuildConfig where
  lib : LibConfig
  rollupOptions : RollupConfig
  outDir : String
  minify : Bool
  sourcemap : Bool
deriving DecidableEq

/-- The plugin object returned by companionPack. The source config is a
thunk returning the build object; it is embedded as that object. -/
structure Plugin where
  name : String
  config : BuildConfig
deriving DecidableEq

/-- Fixed part of the footer template before the interpolated packId:
everything of the trimmed template literal up to the opening quote of
the packId string literal. -/
def footerPre : String :=
  "if (typeof window !== \x27undefined\x27) \x7b\n  if (!window.__COMPANION_PACKS__) window.__COMPANION_PACKS__ = \x7b\x7d;\n  window.__COMPANION_PACKS__[\x27"

/-- Fixed part of the footer template between the interpolated packId
and the interpolated packName. -/
def footerMid : String := "\x27] = "

/-- Fixed part of the footer template after the interpolated packName. -/
def footerSuf : String := ".default;\n\x7d"

/-- The self-registration footer emitted by companionPack: the template
literal of src/vite-plugin.ts after .trim(), with packId and packName
interpolated verbatim. The trim removes only the leading newline and
the trailing newline-plus-indentation of the template literal, so the
result is exactly this concatenation for every packId and packName. -/
def registrationFooter (packId packName : String) : String :=
  footerPre ++ (packId ++ (footerMid ++ (packName ++ footerSuf)))

/-- The companionPack plugin factory (src/vite-plugin.ts). JavaScript
destructuring defaults entry to "index.ts" and outDir to "dist" when
the property is absent or undefined, modelled by Option.getD. -/
def companionPack (options : CompanionPackOptions) : Plugin :=
  { name := "companion-pack"
    config :=
      { lib :=
          { entry := options.entry.getD "index.ts"
            name := options.packName
            fileName := "frontend.js"
            formats := ["iife"] }
        rollupOptions :=
          { external := ["react", "react-dom"]
            output :=
              { globals := [("react", "React"), ("react-dom", "ReactDOM")]
                footer := registrationFooter options.packId options.packName } }
        outDir := options.outDir.getD "dist"
        minify := true
        sourcemap := false } }

/-! ### String helpers for reasoning about the emitted footer -/

/-- The substring relation: needle occurs contiguously inside hay. -/
def containsStr (needle hay : String) : Prop := needle.data <:+: hay.data

instance (n h : String) : Decidable (containsStr n h) :=
  List.decidableInfix n.data h.data

theorem containsStr_append_left {n : String} (a b : String)
    (h : containsStr n a) : containsStr n (a ++ b) := by
  obtain ⟨s, t, e⟩ := h
  exact ⟨s, t ++ b.data, by rw [String.data_append, ← e]; simp⟩

/-- The single-quote character used by the footer template. -/
def apos : Char := Char.ofNat 39

/-- Number of single-quote characters in a string. -/
def aposCount (s : String) : Nat := s.data.count apos

theorem aposCount_append (a b : String) :
    aposCount (a ++ b) = aposCount a + aposCount b := by
  unfold aposCount
  rw [String.data_append, List.count_append]

/-- Quote budget of the footer: with quote-free interpolands the footer
holds exactly the four template quotes. -/
theorem aposCount_registrationFooter (p n : String)
    (hp : aposCount p = 0) (hn : aposCount n = 0) :
    aposCount (registrationFooter p n) = 4 := by
  unfold registrationFooter
  rw [aposCount_append, aposCount_append, aposCount_append, aposCount_append,
    hp, hn]
  decide

/-! ### Semantics of the generated footer (JavaScript statements of the
registration footer, src/vite-plugin.ts lines 23-26) -/

/-- State of the loading context as the footer sees it: none when
typeof window is undefined; some reg when window exists, where reg is
the __COMPANION_PACKS__ slot, none when the slot is empty (the footer
tests it for truthiness; an object stored there is always truthy) and
some r when it holds a registry mapping pack ids to pack values. -/
def WindowState (A : Type) : Type := Option (Option (String → Option A))

/-- Running the generated footer: if window is undefined nothing
happens; otherwise an empty __COMPANION_PACKS__ slot is initialized to
the empty object and the entry at packId is assigned the pack value. -/
def runFooter {A : Type} (packId : String) (v : A) :
    WindowState A → WindowState A
  | none => none
  | some slot =>
      some (some (fun k =>
        if k = packId then some v else (slot.getD (fun _ => none)) k))

/-- Entry of a window state under a pack id: the registry lookup when
window and the registry exist, none otherwise. -/
def packEntry {A : Type} (w : WindowState A) (k : String) : Option A :=
  match w with
  | some (some r) => r k
  | _ => none

/-! ### Claims about the Vite plugin -/

/-- C1 counterexample: at packId "league" and packName "LeaguePack" the
footer configured by companionPack contains the ambient-global
self-registration statement assigning into window.__COMPANION_PACKS__,
refuting the claim that the configured build output performs no such
window-global self-registration. -/
theorem companionPack_counterexample_global_registration :
    containsStr "window.__COMPANION_PACKS__[\x27league\x27] = LeaguePack.default;"
      ((companionPack { packId := "league", packName := "LeaguePack" }).config.rollupOptions.output.footer) := by
  decide

/-- C1 (amended): for every options object, the footer emitted under
the companionPack configuration installs the pack into the ambient
window-global mutable registry window.__COMPANION_PACKS__; no explicit
register/deregister registry object appears in the emitted code. -/
theorem companionPack_self_registration :
    ∀ opts : CompanionPackOptions,
      containsStr "window.__COMPANION_PACKS__[\x27"
        ((companionPack opts).config.rollupOptions.output.footer) := by
  intro opts
  show containsStr _ (registrationFooter opts.packId opts.packName)
  unfold registrationFooter
  exact containsStr_append_left footerPre _ (by decide)

/-- C2 counterexample: at packId "league" and packName "LeaguePack" the
bundle footer configured by companionPack performs a direct write of
the window global __COMPANION_PACKS__ (not mediated by any bridge),
refuting the claim that the configured bundle performs no direct read
or write of window globals. -/
theorem companionPack_counterexample_window_write :
    containsStr "window.__COMPANION_PACKS__ = \x7b\x7d;"
      ((companionPack { packId := "league", packName := "LeaguePack" }).config.rollupOptions.output.footer) := by
  decide

/-- C2 (amended): the build configuration itself enforces no capability
restriction; for every options object the emitted footer directly
writes the window global __COMPANION_PACKS__, so isolation from host
resources can only come from the runtime iframe sandbox, not from the
bundle companionPack configures. -/
theorem companionPack_direct_window_access :
    ∀ opts : CompanionPackOptions,
      containsStr "window.__COMPANION_PACKS__ = \x7b\x7d;"
        ((companionPack opts).config.rollupOptions.output.footer) := by
  intro opts
  show containsStr _ (registrationFooter opts.packId opts.packName)
  unfold registrationFooter
  exact containsStr_append_left footerPre _ (by decide)

/-- C8: the generated footer preserves unrelated registry state: it
does nothing when window is undefined, it assigns the entry at packId,
and every entry under any other pack id keeps its previous value (in
particular, a present registry object is kept, not recreated). -/
theorem runFooter_frame :
    ∀ {A : Type} (p k : String) (v : A) (w : WindowState A),
      (w = none → runFooter p v w = none) ∧
      (w ≠ none → packEntry (runFooter p v w) p = some v) ∧
      (w ≠ none → k ≠ p → packEntry (runFooter p v w) k = packEntry w k) := by
  intro A p k v w
  refine ⟨?_, ?_, ?_⟩
  · rintro rfl; rfl
  · intro hw
    match w with
    | none => exact absurd rfl hw
    | some slot => simp [runFooter, packEntry]
  · intro hw hk
    match w with
    | none => exact absurd rfl hw
    | some none => simp [runFooter, packEntry, hk]
    | some (some r) => simp [runFooter, packEntry, hk]

/-- A concrete window state holding one previously registered pack. -/
def sampleWindow : WindowState Nat :=
  some (some (fun q => if q = "other" then some 7 else none))

/-- Concrete instance of the footer frame property: registering
"league" stores its value and leaves the entry of "other" unchanged. -/
theorem runFooter_frame_witness :
    sampleWindow ≠ none ∧ ("other" : String) ≠ "league" ∧
    packEntry (runFooter "league" (5 : Nat) sampleWindow) "league" = some 5 ∧
    packEntry (runFooter "league" (5 : Nat) sampleWindow) "other" =
      packEntry sampleWindow "other" :=
  ⟨by simp [sampleWindow], by decide,
   (runFooter_frame "league" "other" 5 sampleWindow).2.1 (by simp [sampleWindow]),
   (runFooter_frame "league" "other" 5 sampleWindow).2.2
     (by simp [sampleWindow]) (by decide)⟩

/-- C9: companionPack interpolates packId and packName verbatim and
unescaped: the footer is exactly the template around the two raw
values, it holds exactly the four template quotes when the values are
quote-free, and a packId containing a single quote yields a footer that
no quote-free instantiation of the template produces (the intended
single assignment statement is broken). -/
theorem footer_verbatim_unescaped :
    (∀ p n : String, registrationFooter p n =
        footerPre ++ (p ++ (footerMid ++ (n ++ footerSuf)))) ∧
    (∀ p n : String, aposCount p = 0 → aposCount n = 0 →
        aposCount (registrationFooter p n) = 4) ∧
    (∀ p n : String, aposCount p = 0 → aposCount n = 0 →
        registrationFooter "bad\x27id" "MyPack" ≠ registrationFooter p n) := by
  refine ⟨fun p n => rfl, aposCount_registrationFooter, ?_⟩
  intro p n hp hn h
  have h5 : aposCount (registrationFooter "bad\x27id" "MyPack") = 5 := by decide
  rw [h, aposCount_registrationFooter p n hp hn] at h5
  exact absurd h5 (by decide)

/-- Concrete instance of the interpolation property at quote-free
inputs "league" and "LeaguePack". -/
theorem footer_verbatim_unescaped_witness :
    aposCount "league" = 0 ∧ aposCount "LeaguePack" = 0 ∧
    aposCount (registrationFooter "league" "LeaguePack") = 4 ∧
    registrationFooter "bad\x27id" "MyPack" ≠ registrationFooter "league" "LeaguePack" :=
  ⟨by decide, by decide,
   footer_verbatim_unescaped.2.1 "league" "LeaguePack" (by decide) (by decide),
   footer_verbatim_unescaped.2.2 "league" "LeaguePack" (by decide) (by decide)⟩

/-- C10: companionPack defaults entry to "index.ts" and outDir to
"dist" when omitted, names the plugin "companion-pack", builds a single
IIFE bundle with fileName "frontend.js", and externalizes react and
react-dom to the globals React and ReactDOM. -/
theorem companionPack_defaults_and_build :
    (∀ opts : CompanionPackOptions, opts.entry = none →
        (companionPack opts).config.lib.entry = "index.ts") ∧
    (∀ opts : CompanionPackOptions, opts.outDir = none →
        (companionPack opts).config.outDir = "dist") ∧
    (∀ opts : CompanionPackOptions,
        (companionPack opts).name = "companion-pack" ∧
        (companionPack opts).config.lib.formats = ["iife"] ∧
        (companionPack opts).config.lib.fileName = "frontend.js" ∧
        (companionPack opts).config.rollupOptions.external = ["react", "react-dom"] ∧
        (companionPack opts).config.rollupOptions.output.globals =
          [("react", "React"), ("react-dom", "ReactDOM")]) := by
  refine ⟨?_, ?_, fun opts => ⟨rfl, rfl, rfl, rfl, rfl⟩⟩
  · intro opts h
    simp [companionPack, h]
  · intro opts h
    simp [companionPack, h]

/-- Concrete instance of the defaults: an options object omitting entry
and outDir builds with entry "index.ts" into outDir "dist". -/
theorem companionPack_defaults_and_build_witness :
    ((⟨"league", "LeaguePack", none, none⟩ : CompanionPackOptions).entry = none) ∧
    (companionPack ⟨"league", "LeaguePack", none, none⟩).config.lib.entry = "index.ts" ∧
    (companionPack ⟨"league", "LeaguePack", none, none⟩).config.outDir = "dist" :=
  ⟨rfl, companionPack_defaults_and_build.1 _ rfl,
   companionPack_defaults_and_build.2.1 _ rfl⟩

/-! ## Part 2: components modelled from the specification

The code of the subprocess protocol runtime, the session state machine,
the host cache store and the sandbox cache bridge is not shipped in
this package (the package holds their types, documentation and the
build tooling), so these components are modelled from the
specification and the claims are settled against the models. -/

/-- Modelled from the spec: the enumerated daemon-to-gamepack command
kinds of the subprocess channel (spec section 6). -/
inductive CmdKind where
  | init
  | detect_running
  | get_status
  | poll_events
  | get_live_data
  | session_start
  | session_end
  | shutdown
deriving DecidableEq

/-- Modelled from the spec: a Command of the subprocess channel, with a
kind, an opaque correlation token and an optional payload (spec
section 3); payloads are kept as opaque strings. -/
structure Command where
  kind : CmdKind
  request_id : String
  payload : Option String := none

/-- Modelled from the spec: a Response of the subprocess channel,
echoing the kind and request_id of the triggering command and carrying
either a success payload or an error descriptor (spec section 3). -/
structure Response where
  kind : CmdKind
  request_id : String
  result : Except String String

/-- Modelled from the spec: the Handler Capability reached through
dispatch, abstracted as one stateful operation per command kind that
may fail (spec sections 4.1 and 4.3); the session state machine
threading is part of the handler state. -/
def HandlerFun (S : Type) : Type :=
  CmdKind → Option String → S → S × Except String String

/-- Modelled from the spec: dispatch of one command (spec section 4.3):
the handler operation runs, and its outcome, success or failure, is
converted into a Response carrying the original command's request_id
and kind; a handler failure never escapes dispatch. -/
def dispatch {S : Type} (h : HandlerFun S) (st : S) (c : Command) :
    S × Response :=
  let out := h c.kind c.payload st
  (out.1, { kind := c.kind, request_id := c.request_id, result := out.2 })

/-- Modelled from the spec: the read-dispatch-write loop of the
Subprocess Protocol Runtime (spec section 4.3): each command is fully
handled and its response emitted before the next command is read; a
shutdown command emits its final response and terminates the loop. -/
def runLoop {S : Type} (h : HandlerFun S) (st : S) :
    List Command → List Response
  | [] => []
  | c :: cs =>
      let out := dispatch h st c
      if c.kind = CmdKind.shutdown then [out.2]
      else out.2 :: runLoop h out.1 cs

/-- C3: every command issued on the subprocess channel while the
runtime is alive (shutdown, if present, is the last command issued)
yields exactly one response, and the i-th response echoes the i-th
command's request_id, for every handler and every start state. -/
theorem runtime_exactly_one_response :
    ∀ {S : Type} (h : HandlerFun S) (st : S) (cs : List Command),
      (∀ c ∈ cs.dropLast, c.kind ≠ CmdKind.shutdown) →
      (runLoop h st cs).map Response.request_id = cs.map Command.request_id ∧
      (runLoop h st cs).length = cs.length := by
  intro S h st cs hcs
  have main : ∀ (st : S) (cs : List Command),
      (∀ c ∈ cs.dropLast, c.kind ≠ CmdKind.shutdown) →
      (runLoop h st cs).map Response.request_id = cs.map Command.request_id := by
    intro st cs
    induction cs generalizing st with
    | nil => intro _; rfl
    | cons c cs ih =>
      intro hh
      cases cs with
      | nil =>
        by_cases hc : c.kind = CmdKind.shutdown <;>
          simp [runLoop, dispatch, hc]
      | cons c2 cs2 =>
        have hcne : c.kind ≠ CmdKind.shutdown := by
          apply hh
          rw [List.dropLast_cons₂]
          exact List.mem_cons_self _ _
        have htail : ∀ x ∈ (c2 :: cs2).dropLast, x.kind ≠ CmdKind.shutdown := by
          intro x hx
          apply hh
          rw [List.dropLast_cons₂]
          exact List.mem_cons_of_mem _ hx
        simp only [runLoop, dispatch, hcne, if_false, List.map_cons]
        exact congrArg _ (ih _ htail)
  refine ⟨main st cs hcs, ?_⟩
  have := congrArg List.length (main st cs hcs)
  simpa using this

/-- A concrete handler for witnesses: every operation succeeds. -/
def trivialHandler : HandlerFun Unit := fun _ _ s => (s, Except.ok "ok")

/-- A concrete command sequence ending in shutdown. -/
def sampleCommands : List Command :=
  [{ kind := CmdKind.init, request_id := "1" },
   { kind := CmdKind.get_status, request_id := "2" },
   { kind := CmdKind.shutdown, request_id := "3" }]

/-- Concrete instance of the one-response-per-command property on a
three-command session ending in shutdown. -/
theorem runtime_exactly_one_response_witness :
    (∀ c ∈ sampleCommands.dropLast, c.kind ≠ CmdKind.shutdown) ∧
    (runLoop trivialHandler () sampleCommands).map Response.request_id =
      sampleCommands.map Command.request_id ∧
    (runLoop trivialHandler () sampleCommands).length = sampleCommands.length :=
  ⟨by decide,
   (runtime_exactly_one_response trivialHandler () sampleCommands (by decide)).1,
   (runtime_exactly_one_response trivialHandler () sampleCommands (by decide)).2⟩

/-! ### Session State Machine (modelled from the spec, section 4.2) -/

/-- Modelled from the spec: the two states of the Session State
Machine. -/
inductive SessionSt where
  | idle
  | inSession
deriving DecidableEq

/-- Modelled from the spec: the observable handler hook firings of the
Session State Machine. -/
inductive SessionEvt where
  | sessionStart
  | sessionEnd
deriving DecidableEq

/-- Modelled from the spec: one step of the Session State Machine on
one polled is_in_game flag (spec section 4.2): the false-to-true edge
fires on_session_start, the true-to-false edge fires on_session_end,
and an unchanged flag fires nothing (idempotence against repeated
identical status reports). -/
def stepSession : SessionSt → Bool → SessionSt × List SessionEvt
  | SessionSt.idle, true => (SessionSt.inSession, [SessionEvt.sessionStart])
  | SessionSt.idle, false => (SessionSt.idle, [])
  | SessionSt.inSession, false => (SessionSt.idle, [SessionEvt.sessionEnd])
  | SessionSt.inSession, true => (SessionSt.inSession, [])

/-- Modelled from the spec: the hook trace of the Session State Machine
over a sequence of polled is_in_game flags. -/
def runSession (st : SessionSt) : List Bool → List SessionEvt
  | [] => []
  | b :: bs => (stepSession st b).2 ++ runSession (stepSession st b).1 bs

/-- Alternation from a state: starting Idle the next hook can only be a
start, starting InSession only an end, alternating thereafter. -/
def altFrom : SessionSt → List SessionEvt → Prop
  | _, [] => True
  | SessionSt.idle, e :: tr =>
      e = SessionEvt.sessionStart ∧ altFrom SessionSt.inSession tr
  | SessionSt.inSession, e :: tr =>
      e = SessionEvt.sessionEnd ∧ altFrom SessionSt.idle tr

theorem altFrom_runSession :
    ∀ (bs : List Bool) (st : SessionSt), altFrom st (runSession st bs) := by
  intro bs
  induction bs with
  | nil => intro st; cases st <;> trivial
  | cons b bs ih =>
    intro st
    cases st <;> cases b <;>
      simp [runSession, stepSession, altFrom] <;> exact ih _

theorem altFrom_chain :
    ∀ (tr : List SessionEvt) (st : SessionSt), altFrom st tr →
      List.Chain' (fun a b => a ≠ b) tr := by
  intro tr
  induction tr with
  | nil => intro st _; exact List.chain'_nil
  | cons e tr ih =>
    intro st h
    cases tr with
    | nil => simp
    | cons e2 tr2 =>
      rw [List.chain'_cons]
      cases st with
      | idle =>
        refine ⟨?_, ih _ h.2⟩
        rw [h.1, h.2.1]
        intro hx
        exact SessionEvt.noConfusion hx
      | inSession =>
        refine ⟨?_, ih _ h.2⟩
        rw [h.1, h.2.1]
        intro hx
        exact SessionEvt.noConfusion hx

theorem altFrom_head :
    ∀ tr : List SessionEvt, altFrom SessionSt.idle tr →
      tr.head? ≠ some SessionEvt.sessionEnd := by
  intro tr h
  cases tr with
  | nil => simp
  | cons e tr2 => simp [h.1]

theorem altFrom_count :
    ∀ (tr : List SessionEvt) (st : SessionSt) (n : Nat), altFrom st tr →
      (tr.take n).count SessionEvt.sessionEnd ≤
        (tr.take n).count SessionEvt.sessionStart +
          (match st with | SessionSt.inSession => 1 | SessionSt.idle => 0) := by
  intro tr
  induction tr with
  | nil => intro st n _; simp
  | cons e tr ih =>
    intro st n h
    cases n with
    | zero => simp
    | succ m =>
      cases st with
      | idle =>
        have he : e = SessionEvt.sessionStart := h.1
        subst he
        have hm := ih SessionSt.inSession m h.2
        simp only [List.take_succ_cons, List.count_cons] at *
        simp at hm ⊢
        omega
      | inSession =>
        have he : e = SessionEvt.sessionEnd := h.1
        subst he
        have hm := ih SessionSt.idle m h.2
        simp only [List.take_succ_cons, List.count_cons] at *
        simp at hm ⊢
        omega

/-- C4: from the initial state Idle, session hooks fire in strict
alternation: adjacent hooks always differ, the first hook is never a
session-end, and in every prefix of the trace the session-ends never
outnumber the session-starts. -/
theorem session_strict_alternation :
    ∀ bs : List Bool,
      List.Chain' (fun a b => a ≠ b) (runSession SessionSt.idle bs) ∧
      (runSession SessionSt.idle bs).head? ≠ some SessionEvt.sessionEnd ∧
      ∀ n : Nat,
        ((runSession SessionSt.idle bs).take n).count SessionEvt.sessionEnd ≤
          ((runSession SessionSt.idle bs).take n).count SessionEvt.sessionStart := by
  intro bs
  have h := altFrom_runSession bs SessionSt.idle
  refine ⟨altFrom_chain _ _ h, altFrom_head _ h, fun n => ?_⟩
  have hc := altFrom_count _ SessionSt.idle n h
  simpa using hc

/-! ### Namespaced cache store (modelled from the spec, sections 3, 4.4
and 6: a mapping from (namespace, key) to a value blob, owned by the
host side) -/

/-- Modelled from the spec: the persisted cache, a mapping from
(namespace, key) to a value blob. -/
def CacheStore (A : Type) : Type := String → String → Option A

/-- The empty cache store: nothing written yet. -/
def emptyStore {A : Type} : CacheStore A := fun _ _ => none

/-- Modelled from the spec: a cache write, scoped by the writing
namespace: only the (namespace, key) cell is assigned. -/
def cacheWrite {A : Type} (ns key : String) (v : A) (st : CacheStore A) :
    CacheStore A :=
  fun n k => if n = ns ∧ k = key then some v else st n k

/-- Modelled from the spec: outcome of a cache read: the stored value,
an explicit not-found result, or an error descriptor (used by the
bridge for timeout or rejection, never by the store itself). -/
inductive ReadResult (A : Type) where
  | found (v : A)
  | notFound
  | err (e : String)
deriving DecidableEq

/-- Modelled from the spec: a cache read scoped by the reading
namespace: the stored value when the cell is written, otherwise the
explicit not-found result. -/
def cacheRead {A : Type} (ns key : String) (st : CacheStore A) :
    ReadResult A :=
  match st ns key with
  | some v => ReadResult.found v
  | none => ReadResult.notFound

/-- A history of writes, applied in order: each element is a
(namespace, key, value) triple. -/
def applyWrites {A : Type} : List (String × String × A) → CacheStore A → CacheStore A
  | [], st => st
  | w :: ws, st => applyWrites ws (cacheWrite w.1 w.2.1 w.2.2 st)

theorem applyWrites_found {A : Type} (nsA k : String) (v : A) :
    ∀ (ws : List (String × String × A)) (st : CacheStore A),
      cacheRead nsA k (applyWrites ws st) = ReadResult.found v →
      (∃ w ∈ ws, w.1 = nsA ∧ w.2.1 = k ∧ w.2.2 = v) ∨
        cacheRead nsA k st = ReadResult.found v := by
  intro ws
  induction ws with
  | nil => intro st h; exact Or.inr h
  | cons w ws ih =>
    intro st h
    rcases ih _ h with hw | hst
    · obtain ⟨x, hx, hxx⟩ := hw
      exact Or.inl ⟨x, List.mem_cons_of_mem _ hx, hxx⟩
    · by_cases hc : nsA = w.1 ∧ k = w.2.1
      · left
        refine ⟨w, List.mem_cons_self _ _, hc.1.symm, hc.2.symm, ?_⟩
        simpa [cacheRead, cacheWrite, hc] using hst
      · right
        simpa [cacheRead, cacheWrite, hc] using hst

theorem applyWrites_unwritten {A : Type} (ns k : String) :
    ∀ (ws : List (String × String × A)) (st : CacheStore A),
      (∀ w ∈ ws, ¬(w.1 = ns ∧ w.2.1 = k)) →
      cacheRead ns k (applyWrites ws st) = cacheRead ns k st := by
  intro ws
  induction ws with
  | nil => intro st _; rfl
  | cons w ws ih =>
    intro st hws
    have hw := hws w (List.mem_cons_self _ _)
    have hc : ¬(ns = w.1 ∧ k = w.2.1) := fun hx => hw ⟨hx.1.symm, hx.2.symm⟩
    rw [show applyWrites (w :: ws) st = applyWrites ws (cacheWrite w.1 w.2.1 w.2.2 st) from rfl,
      ih _ fun x hx => hws x (List.mem_cons_of_mem _ hx)]
    simp [cacheRead, cacheWrite, hc]

/-- C5: cache operations are namespace-isolated: a write under
namespace B changes nothing a read under a different namespace A can
observe, and a value found by a read over any write history was written
under the reading namespace (and key) itself. -/
theorem cache_namespace_isolation :
    ∀ {A : Type} (nsA nsB k q : String) (v : A) (st : CacheStore A),
      (nsA ≠ nsB →
        cacheRead nsA k (cacheWrite nsB q v st) = cacheRead nsA k st) ∧
      ∀ ws : List (String × String × A),
        cacheRead nsA k (applyWrites ws emptyStore) = ReadResult.found v →
        ∃ w ∈ ws, w.1 = nsA ∧ w.2.1 = k ∧ w.2.2 = v := by
  intro A nsA nsB k q v st
  constructor
  · intro hne
    simp [cacheRead, cacheWrite, hne]
  · intro ws h
    rcases applyWrites_found nsA k v ws emptyStore h with hw | hst
    · exact hw
    · simp [cacheRead, emptyStore] at hst

/-- Concrete instance of namespace isolation: a write under "valorant"
is invisible to a read under "league", and a value found under
"league" was written under "league". -/
theorem cache_namespace_isolation_witness :
    ("league" : String) ≠ "valorant" ∧
    cacheRead "league" "k" (cacheWrite "valorant" "k" (9 : Nat) emptyStore) =
      cacheRead "league" "k" emptyStore ∧
    cacheRead "league" "k" (applyWrites [("league", "k", (3 : Nat))] emptyStore) =
      ReadResult.found 3 ∧
    ∃ w ∈ [("league", "k", (3 : Nat))], w.1 = "league" ∧ w.2.1 = "k" ∧ w.2.2 = 3 :=
  ⟨by decide,
   (cache_namespace_isolation "league" "valorant" "k" "k" (9 : Nat) emptyStore).1
     (by decide),
   by decide,
   (cache_namespace_isolation "league" "valorant" "k" "k" (3 : Nat) emptyStore).2
     [("league", "k", (3 : Nat))] (by decide)⟩

/-- C6: a write followed by a read of the same key in the same
namespace returns the written value, and a read of a key never written
in that namespace returns the explicit not-found result, never an
error. -/
theorem cache_write_then_read :
    ∀ {A : Type} (ns k : String) (v : A) (st : CacheStore A),
      cacheRead ns k (cacheWrite ns k v st) = ReadResult.found v ∧
      ∀ ws : List (String × String × A),
        (∀ w ∈ ws, ¬(w.1 = ns ∧ w.2.1 = k)) →
        cacheRead ns k (applyWrites ws emptyStore) = ReadResult.notFound := by
  intro A ns k v st
  constructor
  · simp [cacheRead, cacheWrite]
  · intro ws hws
    rw [applyWrites_unwritten ns k ws emptyStore hws]
    rfl

/-- Concrete instance of the read-back property: a write of 2 under
("mygame", "key") reads back as 2, and "key" reads as not-found over a
history that wrote only under other namespaces or keys. -/
theorem cache_write_then_read_witness :
    cacheRead "mygame" "key" (cacheWrite "mygame" "key" (2 : Nat) emptyStore) =
      ReadResult.found 2 ∧
    (∀ w ∈ [("other", "key", (1 : Nat)), ("mygame", "misc", (4 : Nat))],
        ¬(w.1 = "mygame" ∧ w.2.1 = "key")) ∧
    cacheRead "mygame" "key"
        (applyWrites [("other", "key", (1 : Nat)), ("mygame", "misc", (4 : Nat))]
          emptyStore) =
      ReadResult.notFound :=
  ⟨(cache_write_then_read "mygame" "key" (2 : Nat) emptyStore).1,
   by decide,
   (cache_write_then_read "mygame" "key" (2 : Nat) emptyStore).2
     [("other", "key", (1 : Nat)), ("mygame", "misc", (4 : Nat))] (by decide)⟩

/-! ### Sandbox Cache Bridge correlation (modelled from the spec,
sections 4.4 and 5: fresh correlation ids, a pending map, timeout
expiry, and routing of replies by id) -/

/-- Modelled from the spec: bridge-side correlation state: the next
fresh correlation id (ids come from a counter, so a released id is
never handed out again) and the set of ids with a pending call. -/
structure BridgeState where
  nextId : Nat
  pending : List Nat
deriving DecidableEq

/-- Modelled from the spec: events the bridge reacts to: sending an
outbound request, an inbound reply for an id, and the timeout expiry of
an id. -/
inductive BridgeEvent where
  | send
  | reply (id : Nat)
  | expire (id : Nat)
deriving DecidableEq

/-- Modelled from the spec: observable outcomes of the bridge: a
request sent under a fresh id, a pending call resolved by its reply, a
pending call failed with BridgeTimeoutError, and an unmatched reply
discarded without resolving anything. -/
inductive BridgeOutcome where
  | sent (id : Nat)
  | resolved (id : Nat)
  | timedOut (id : Nat)
  | discarded (id : Nat)
deriving DecidableEq

/-- Modelled from the spec: one bridge transition (spec section 4.4):
send allocates the fresh id and registers the pending call; a reply is
routed by id, resolving the pending call when one exists and otherwise
discarded; timeout expiry fails the pending call with a timeout error
and releases its id, and is a no-op for an id no longer pending. -/
def bridgeStep (st : BridgeState) : BridgeEvent → BridgeState × List BridgeOutcome
  | BridgeEvent.send =>
      (⟨st.nextId + 1, st.nextId :: st.pending⟩, [BridgeOutcome.sent st.nextId])
  | BridgeEvent.reply i =>
      if i ∈ st.pending then
        (⟨st.nextId, st.pending.erase i⟩, [BridgeOutcome.resolved i])
      else (st, [BridgeOutcome.discarded i])
  | BridgeEvent.expire i =>
      if i ∈ st.pending then
        (⟨st.nextId, st.pending.erase i⟩, [BridgeOutcome.timedOut i])
      else (st, [])

/-- Running the bridge over a sequence of events, collecting outcomes. -/
def bridgeRun (st : BridgeState) : List BridgeEvent → BridgeState × List BridgeOutcome
  | [] => (st, [])
  | e :: es =>
      let out := bridgeStep st e
      let rest := bridgeRun out.1 es
      (rest.1, out.2 ++ rest.2)

/-- The correlation ids allocated along a list of outcomes. -/
def sentIds : List BridgeOutcome → List Nat
  | [] => []
  | BridgeOutcome.sent i :: os => i :: sentIds os
  | BridgeOutcome.resolved _ :: os => sentIds os
  | BridgeOutcome.timedOut _ :: os => sentIds os
  | BridgeOutcome.discarded _ :: os => sentIds os

/-- The bridge before any request was sent. -/
def initialBridge : BridgeState := ⟨0, []⟩

theorem sentIds_append (a b : List BridgeOutcome) :
    sentIds (a ++ b) = sentIds a ++ sentIds b := by
  induction a with
  | nil => rfl
  | cons o os ih => cases o <;> simp [sentIds, ih]

theorem bridgeStep_nextId_le (st : BridgeState) (e : BridgeEvent) :
    st.nextId ≤ ((bridgeStep st e).1).nextId := by
  cases e with
  | send => exact Nat.le_succ _
  | reply i => by_cases h : i ∈ st.pending <;> simp [bridgeStep, h]
  | expire i => by_cases h : i ∈ st.pending <;> simp [bridgeStep, h]

theorem bridgeRun_sent_lower :
    ∀ (es : List BridgeEvent) (st : BridgeState) (i : Nat),
      i ∈ sentIds (bridgeRun st es).2 → st.nextId ≤ i := by
  intro es
  induction es with
  | nil => intro st i h; simp [bridgeRun, sentIds] at h
  | cons e es ih =>
    intro st i h
    rw [show (bridgeRun st (e :: es)).2 =
        (bridgeStep st e).2 ++ (bridgeRun (bridgeStep st e).1 es).2 from rfl,
      sentIds_append] at h
    rcases List.mem_append.mp h with hh | ht
    · cases e with
      | send =>
        simp [bridgeStep, sentIds] at hh
        omega
      | reply j =>
        by_cases hj : j ∈ st.pending <;> simp [bridgeStep, hj, sentIds] at hh
      | expire j =>
        by_cases hj : j ∈ st.pending <;> simp [bridgeStep, hj, sentIds] at hh
    · exact le_trans (bridgeStep_nextId_le st e) (ih _ i ht)

theorem bridgeRun_sent_increasing :
    ∀ (es : List BridgeEvent) (st : BridgeState),
      List.Pairwise (fun a b => a < b) (sentIds (bridgeRun st es).2) := by
  intro es
  induction es with
  | nil => intro st; simp [bridgeRun, sentIds]
  | cons e es ih =>
    intro st
    rw [show (bridgeRun st (e :: es)).2 =
        (bridgeStep st e).2 ++ (bridgeRun (bridgeStep st e).1 es).2 from rfl,
      sentIds_append, List.pairwise_append]
    refine ⟨?_, ih _, ?_⟩
    · cases e with
      | send => simp [bridgeStep, sentIds]
      | reply j =>
        by_cases hj : j ∈ st.pending <;> simp [bridgeStep, hj, sentIds]
      | expire j =>
        by_cases hj : j ∈ st.pending <;> simp [bridgeStep, hj, sentIds]
    · intro x hx y hy
      have hy2 := bridgeRun_sent_lower es _ y hy
      cases e with
      | send =>
        simp [bridgeStep, sentIds] at hx hy2
        omega
      | reply j =>
        by_cases hj : j ∈ st.pending <;> simp [bridgeStep, hj, sentIds] at hx
      | expire j =>
        by_cases hj : j ∈ st.pending <;> simp [bridgeStep, hj, sentIds] at hx

/-- C7: on timeout expiry of a pending id the call fails with the
timeout outcome and the id is released; a reply for an id with no
pending call (in particular, a late reply after the timeout) is
discarded without touching any state; and correlation ids are never
reused: the ids allocated along any run from the initial bridge are
strictly increasing. -/
theorem bridge_timeout_discipline :
    (∀ (st : BridgeState) (i : Nat), st.pending.Nodup → i ∈ st.pending →
      (bridgeStep st (BridgeEvent.expire i)).2 = [BridgeOutcome.timedOut i] ∧
      i ∉ (bridgeStep st (BridgeEvent.expire i)).1.pending) ∧
    (∀ (st : BridgeState) (i : Nat), i ∉ st.pending →
      bridgeStep st (BridgeEvent.reply i) = (st, [BridgeOutcome.discarded i])) ∧
    (∀ (st : BridgeState) (i : Nat), st.pending.Nodup → i ∈ st.pending →
      bridgeStep (bridgeStep st (BridgeEvent.expire i)).1 (BridgeEvent.reply i) =
        ((bridgeStep st (BridgeEvent.expire i)).1,
         [BridgeOutcome.discarded i])) ∧
    (∀ es : List BridgeEvent,
      List.Pairwise (fun a b => a < b) (sentIds (bridgeRun initialBridge es).2)) := by
  have hexp : ∀ (st : BridgeState) (i : Nat), st.pending.Nodup → i ∈ st.pending →
      (bridgeStep st (BridgeEvent.expire i)).2 = [BridgeOutcome.timedOut i] ∧
      i ∉ (bridgeStep st (BridgeEvent.expire i)).1.pending := by
    intro st i hnd hi
    refine ⟨by simp [bridgeStep, hi], ?_⟩
    simp only [bridgeStep, hi, if_pos]
    exact hnd.not_mem_erase
  have hrep : ∀ (st : BridgeState) (i : Nat), i ∉ st.pending →
      bridgeStep st (BridgeEvent.reply i) = (st, [BridgeOutcome.discarded i]) := by
    intro st i hi
    simp [bridgeStep, hi]
  refine ⟨hexp, hrep, ?_, fun es => bridgeRun_sent_increasing es initialBridge⟩
  intro st i hnd hi
  exact hrep _ i (hexp st i hnd hi).2

/-- Concrete instance of the timeout discipline: with id 0 pending, the
expiry of 0 times the call out and releases 0, a late reply for 0 is
discarded leaving the state unchanged, and two sends from the initial
bridge allocate the distinct increasing ids 0 and 1. -/
theorem bridge_timeout_discipline_witness :
    ([0] : List Nat).Nodup ∧ 0 ∈ ([0] : List Nat) ∧
    (bridgeStep ⟨1, [0]⟩ (BridgeEvent.expire 0)).2 = [BridgeOutcome.timedOut 0] ∧
    0 ∉ (bridgeStep ⟨1, [0]⟩ (BridgeEvent.expire 0)).1.pending ∧
    bridgeStep (bridgeStep ⟨1, [0]⟩ (BridgeEvent.expire 0)).1 (BridgeEvent.reply 0) =
      ((bridgeStep ⟨1, [0]⟩ (BridgeEvent.expire 0)).1, [BridgeOutcome.discarded 0]) ∧
    List.Pairwise (fun a b => a < b)
      (sentIds (bridgeRun initialBridge [BridgeEvent.send, BridgeEvent.send]).2) :=
  ⟨by decide, by decide,
   (bridge_timeout_discipline.1 ⟨1, [0]⟩ 0 (by decide) (by decide)).1,
   (bridge_timeout_discipline.1 ⟨1, [0]⟩ 0 (by decide) (by decide)).2,
   bridge_timeout_discipline.2.2.1 ⟨1, [0]⟩ 0 (by decide) (by decide),
   bridge_timeout_discipline.2.2.2 [BridgeEvent.send, BridgeEvent.send]⟩

/-- Concrete instance of strict alternation: one session open and
close gives a trace whose adjacent hooks differ, whose first hook is
not an end, and whose two-hook prefix has no end surplus. -/
theorem session_strict_alternation_witness :
    List.Chain' (fun a b => a ≠ b) (runSession SessionSt.idle [true, false]) ∧
    (runSession SessionSt.idle [true, false]).head? ≠ some SessionEvt.sessionEnd ∧
    ((runSession SessionSt.idle [true, false]).take 2).count SessionEvt.sessionEnd ≤
      ((runSession SessionSt.idle [true, false]).take 2).count SessionEvt.sessionStart :=
  ⟨(session_strict_alternation [true, false]).1,
   (session_strict_alternation [true, false]).2.1,
   (session_strict_alternation [true, false]).2.2 2⟩
